import Mathlib

/-!
Verification development for the recall-2025 ETL scripts.

The Python sources are shallowly embedded as Lean functions:

* `extract_and_merge.py`: polling-station records, village grouping
  (`merge_by_cunli`), per-village aggregation (`sumFields`), the turnout
  computation (`pythonRound2`), the hard-coded agree/disagree swap for
  village 65000040036 (`process_cunli_json`, `process_cunli_summary`),
  and the county-name normalizer (`normalize_district_name`).
* `combine_cunli_election_data.py`: winner selection (`pick_winner`) and
  the multi-recall-case disambiguation (`combineRecall`).
* `add_villcode.py` / `match_villcode_improved.py`: the VILLCODE update
  steps on village JSON files (`update_cunli_file_add`,
  `update_cunli_file_improved`).

Python `str` values are modelled as Lean `String` (lists of characters);
Python unbounded `int` vote tallies, which are nonnegative counts
extracted from the spreadsheets, are modelled as `Nat`; Python floats
are modelled as exact rationals, with `round(x, 2)` modelled as
round-half-to-even, following the documented semantics of `round`.
-/

namespace Recall2025

/-- Prefix test on character lists: `leads p s` is true when `p` is a prefix
of `s`.  Used to model where a Python `str.replace` match begins and the
Python substring operator `in`. -/
def leads : List Char → List Char → Bool
  | [], _ => true
  | _ :: _, [] => false
  | a :: p, b :: s => a == b && leads p s

/-- Substring test on character lists, modelling Python `p in s`. -/
def occursIn (p : List Char) : List Char → Bool
  | [] => p.isEmpty
  | c :: cs => leads p (c :: cs) || occursIn p cs

/-- Substring test on strings, modelling Python `p in s`. -/
def strOccurs (p s : String) : Bool := occursIn p.data s.data

/-- Model of Python `s.replace(a :: t, r)` for a nonempty pattern `a :: t`:
replaces the leftmost occurrence, then continues after the replaced
segment (non-overlapping, left to right). -/
def replaceAll (a : Char) (t r : List Char) : List Char → List Char
  | [] => []
  | c :: cs =>
    if leads (a :: t) (c :: cs) then
      r ++ replaceAll a t r (List.drop t.length cs)
    else
      c :: replaceAll a t r cs
termination_by s => s.length
decreasing_by
  · simp only [List.length_drop, List.length_cons]
    omega
  · simp only [List.length_cons]
    omega

/-- Model of `normalize_district_name` from `extract_and_merge.py` and
`add_villcode.py`: the four `str.replace` calls are applied in the
insertion order of the Python `replacements` dict
(臺北市→台北市, 臺中市→台中市, 臺東縣→台東縣, 臺南市→台南市). -/
def normalize_district_name (s : List Char) : List Char :=
  replaceAll '臺' ['南', '市'] ['台', '南', '市']
    (replaceAll '臺' ['東', '縣'] ['台', '東', '縣']
      (replaceAll '臺' ['中', '市'] ['台', '中', '市']
        (replaceAll '臺' ['北', '市'] ['台', '北', '市'] s)))

/-- String-level wrapper of `normalize_district_name`. -/
def normalize_district_name_str (s : String) : String :=
  String.mk (normalize_district_name s.data)

/-- Round-half-to-even on rationals, modelling Python `round(x)` on the
exact value of `x`. -/
def roundHalfEven (x : ℚ) : ℤ :=
  if x - ⌊x⌋ < 1 / 2 then ⌊x⌋
  else if 1 / 2 < x - ⌊x⌋ then ⌊x⌋ + 1
  else if ⌊x⌋ % 2 = 0 then ⌊x⌋ else ⌊x⌋ + 1

/-- Model of Python `round(x, 2)` on the exact rational value of `x`. -/
def pythonRound2 (x : ℚ) : ℚ := (roundHalfEven (x * 100) : ℚ) / 100

/-- One polling-station row as produced by `extract_excel_data` in
`extract_and_merge.py`.  `district` is `none` when no district header row
preceded the data row (Python `current_district = None`). -/
structure PollingRecord where
  recall_case : String
  district : Option String
  village : String
  polling_station : String
  agree_votes : ℕ
  disagree_votes : ℕ
  valid_votes : ℕ
  invalid_votes : ℕ
  total_voters : ℕ
  ballots_not_cast : ℕ
  ballots_issued : ℕ
  unused_ballots : ℕ
  eligible_voters : ℕ
  turnout_rate : ℚ
deriving DecidableEq

/-- The in-place agree/disagree exchange applied to one record by the
65000040036 data-correction blocks of `extract_and_merge.py`. -/
def swapRecord (r : PollingRecord) : PollingRecord :=
  { r with agree_votes := r.disagree_votes, disagree_votes := r.agree_votes }

/-- Python `sum(r['agree_votes'] for r in records)`. -/
def sumAgree (rs : List PollingRecord) : ℕ := (rs.map fun r => r.agree_votes).sum

/-- Python `sum(r['disagree_votes'] for r in records)`. -/
def sumDisagree (rs : List PollingRecord) : ℕ := (rs.map fun r => r.disagree_votes).sum

/-- Python `sum(r['valid_votes'] for r in records)`. -/
def sumValid (rs : List PollingRecord) : ℕ := (rs.map fun r => r.valid_votes).sum

/-- Python `sum(r['invalid_votes'] for r in records)`. -/
def sumInvalid (rs : List PollingRecord) : ℕ := (rs.map fun r => r.invalid_votes).sum

/-- Python `sum(r['total_voters'] for r in records)`. -/
def sumTotal (rs : List PollingRecord) : ℕ := (rs.map fun r => r.total_voters).sum

/-- Python `sum(r['ballots_not_cast'] for r in records)`. -/
def sumBallotsNotCast (rs : List PollingRecord) : ℕ :=
  (rs.map fun r => r.ballots_not_cast).sum

/-- Python `sum(r['ballots_issued'] for r in records)`. -/
def sumBallotsIssued (rs : List PollingRecord) : ℕ :=
  (rs.map fun r => r.ballots_issued).sum

/-- Python `sum(r['unused_ballots'] for r in records)`. -/
def sumUnused (rs : List PollingRecord) : ℕ := (rs.map fun r => r.unused_ballots).sum

/-- Python `sum(r['eligible_voters'] for r in records)`. -/
def sumEligible (rs : List PollingRecord) : ℕ := (rs.map fun r => r.eligible_voters).sum

/-- The `sum_fields` dict built at lines 206-226 of `extract_and_merge.py`. -/
structure SumFields where
  agree_votes : ℕ
  disagree_votes : ℕ
  valid_votes : ℕ
  invalid_votes : ℕ
  total_voters : ℕ
  ballots_not_cast : ℕ
  ballots_issued : ℕ
  unused_ballots : ℕ
  eligible_voters : ℕ
  average_turnout_rate : ℚ
deriving DecidableEq

/-- Lines 206-226 of `extract_and_merge.py`: the nine numeric sums plus the
average turnout rate (`round(total/eligible*100, 2)` when the eligible sum
is positive, `0.0` otherwise). -/
def sumFields (rs : List PollingRecord) : SumFields where
  agree_votes := sumAgree rs
  disagree_votes := sumDisagree rs
  valid_votes := sumValid rs
  invalid_votes := sumInvalid rs
  total_voters := sumTotal rs
  ballots_not_cast := sumBallotsNotCast rs
  ballots_issued := sumBallotsIssued rs
  unused_ballots := sumUnused rs
  eligible_voters := sumEligible rs
  average_turnout_rate :=
    if 0 < sumEligible rs then
      pythonRound2 ((sumTotal rs : ℚ) / (sumEligible rs : ℚ) * 100)
    else 0

/-- The spec formula for the average turnout rate, written from the spec
text: total summed over eligible summed times 100, rounded to 2 decimal
places, and 0.0 when the eligible sum is 0. -/
def turnout_spec (t e : ℕ) : ℚ :=
  if e = 0 then 0 else pythonRound2 ((t : ℚ) / (e : ℚ) * 100)

/-- Lines 206-305 of `extract_and_merge.py`, per village: build `sum_fields`
from the grouped records, then, when the resolved code is 65000040036
(the condition `villcode == c or data.get('VILLCODE') == c`, where both
sides hold the resolution result), exchange agree/disagree in the summed
totals and in every record.  Returns the emitted `sum_fields` and the
emitted `records` list; the returned records are the same objects stored
in `cunli_merged`, whose in-place mutation is visible to later passes. -/
def process_cunli_json (villcode : Option String) (rs : List PollingRecord) :
    SumFields × List PollingRecord :=
  if villcode = some "65000040036" then
    ({ sumFields rs with
        agree_votes := (sumFields rs).disagree_votes,
        disagree_votes := (sumFields rs).agree_votes },
      rs.map swapRecord)
  else (sumFields rs, rs)

/-- The `sum_fields` dict of the `cunli_summary` pass (lines 344-360 of
`extract_and_merge.py`): six sums plus the average turnout rate. -/
structure SummarySumFields where
  agree_votes : ℕ
  disagree_votes : ℕ
  valid_votes : ℕ
  invalid_votes : ℕ
  total_voters : ℕ
  eligible_voters : ℕ
  average_turnout_rate : ℚ
deriving DecidableEq

/-- Lines 344-360 of `extract_and_merge.py`. -/
def summary_sum_fields (rs : List PollingRecord) : SummarySumFields where
  agree_votes := sumAgree rs
  disagree_votes := sumDisagree rs
  valid_votes := sumValid rs
  invalid_votes := sumInvalid rs
  total_voters := sumTotal rs
  eligible_voters := sumEligible rs
  average_turnout_rate :=
    if 0 < sumEligible rs then
      pythonRound2 ((sumTotal rs : ℚ) / (sumEligible rs : ℚ) * 100)
    else 0

/-- Lines 326-360 of `extract_and_merge.py`, per village: when the raw
cunli key is 永和區_光復里, copy each record with agree/disagree
exchanged, then sum over the (possibly corrected) records. -/
def process_cunli_summary (cunli_key : String) (rs : List PollingRecord) :
    SummarySumFields :=
  summary_sum_fields
    (if cunli_key = "永和區_光復里" then rs.map swapRecord else rs)

/-- The two passes of `main` in `extract_and_merge.py` for one village, in
program order.  The first pass mutates the grouped records in place
(lines 298-301 assign into the dicts held by `cunli_merged`), so the
second (`cunli_summary`) pass receives the records as left by the first
pass, not the raw extraction output. -/
def pipeline_village (cunli_key : String) (villcode : Option String)
    (rs : List PollingRecord) :
    (SumFields × List PollingRecord) × SummarySumFields :=
  (((process_cunli_json villcode rs).1, (process_cunli_json villcode rs).2),
    process_cunli_summary cunli_key (process_cunli_json villcode rs).2)

/-- The grouping key of `merge_by_cunli` (line 144 of
`extract_and_merge.py`): `f"{district}_{village}"`. -/
def cunli_key_of (r : PollingRecord) : String :=
  (r.district.getD "") ++ "_" ++ r.village

/-- The guard at line 142 of `extract_and_merge.py`:
`if record['district'] and record['village']` under Python truthiness,
where `district` is `None` or a string. -/
def record_included (r : PollingRecord) : Bool :=
  (match r.district with
   | none => false
   | some d => !(d == "")) && !(r.village == "")

/-- `merge_by_cunli` from `extract_and_merge.py`, viewed as the group each
key receives: the included records carrying that key, in input order
(the `defaultdict(list)` appends in iteration order). -/
def merge_by_cunli (all_data : List PollingRecord) (key : String) :
    List PollingRecord :=
  all_data.filter fun r => record_included r && (cunli_key_of r == key)

/-- One candidate entry of the election dataset
(`election_info['votes'][candidate]` in
`combine_cunli_election_data.py`). -/
structure VoteInfo where
  name : String
  party : String
  votes : ℕ
  no : String
deriving DecidableEq

/-- The winner accumulator of lines 79-87 of
`combine_cunli_election_data.py`. -/
structure Winner where
  winner_name : String
  winner_party : String
  winner_votes : ℕ
deriving DecidableEq

/-- The loop body of lines 83-87: each candidate replaces the current best
exactly when its vote count is strictly greater. -/
def pick_winner_aux (best : Winner) : List VoteInfo → Winner
  | [] => best
  | v :: vs =>
    pick_winner_aux
      (if best.winner_votes < v.votes then ⟨v.name, v.party, v.votes⟩ else best) vs

/-- Lines 79-87 of `combine_cunli_election_data.py`: fold over the candidate
list starting from the sentinel `("", "", 0)`. -/
def pick_winner (votes : List VoteInfo) : Winner :=
  pick_winner_aux ⟨"", "", 0⟩ votes

/-- The recall fields read into the combined record
(`recall_data` in `combine_cunli_election_data.py`). -/
structure RecallData where
  agree_votes : ℕ
  disagree_votes : ℕ
  valid_votes : ℕ
  invalid_votes : ℕ
  eligible_voters : ℕ
  average_turnout_rate : ℚ
deriving DecidableEq

/-- The fields of `cunli_info['sum_fields']` consumed by the combined
record when no disambiguation applies. -/
def recallOfSumFields (sf : SumFields) : RecallData where
  agree_votes := sf.agree_votes
  disagree_votes := sf.disagree_votes
  valid_votes := sf.valid_votes
  invalid_votes := sf.invalid_votes
  eligible_voters := sf.eligible_voters
  average_turnout_rate := sf.average_turnout_rate

/-- The city-specific record filter of lines 102-129 of
`combine_cunli_election_data.py`: decides whether one record of the
village matches the election entry's zone. -/
def matchesZone (county_name election_zone recall_case : String) : Bool :=
  if county_name = "新竹市" then strOccurs "鄭正鈐罷免案" recall_case
  else if county_name = "基隆市" then strOccurs "基隆市選舉區" recall_case
  else if county_name = "臺北市" then
    (election_zone == "臺北市第01選區" && strOccurs "臺北市第1選舉區" recall_case) ||
    (election_zone == "臺北市第02選區" && strOccurs "臺北市第2選舉區" recall_case) ||
    (election_zone == "臺北市第03選區" && strOccurs "臺北市第3選舉區" recall_case) ||
    (election_zone == "臺北市第04選區" && strOccurs "臺北市第4選舉區" recall_case) ||
    (election_zone == "臺北市第05選區" && strOccurs "臺北市第5選舉區" recall_case) ||
    (election_zone == "臺北市第06選區" && strOccurs "臺北市第6選舉區" recall_case) ||
    (election_zone == "臺北市第07選區" && strOccurs "臺北市第7選舉區" recall_case) ||
    (election_zone == "臺北市第08選區" && strOccurs "臺北市第8選舉區" recall_case)
  else false

/-- `matching_records` of lines 98-129. -/
def matching_records (county_name election_zone : String)
    (records : List PollingRecord) : List PollingRecord :=
  records.filter fun r => matchesZone county_name election_zone r.recall_case

/-- Python `len(set(record['recall_case'] for record in records))`. -/
def distinct_recall_cases (records : List PollingRecord) : ℕ :=
  ((records.map fun r => r.recall_case).dedup).length

/-- Python `records[0]['recall_case'] if records else ""` (line 91). -/
def first_recall_case (records : List PollingRecord) : String :=
  match records with
  | [] => ""
  | r :: _ => r.recall_case

/-- Lines 89-143 of `combine_cunli_election_data.py`: the recall totals and
case label selected for one matched village.  With more than one distinct
recall case, the records matching the election zone are selected and the
totals recomputed from them (the turnout here is not rounded, line 142);
with no matching record, or with a single case, the pre-aggregated
`sum_fields` and the first record's case label are kept. -/
def combineRecall (county_name election_zone : String) (sf : SumFields)
    (records : List PollingRecord) : RecallData × String :=
  if 1 < distinct_recall_cases records then
    match matching_records county_name election_zone records with
    | [] => (recallOfSumFields sf, first_recall_case records)
    | m :: ms =>
      ({ agree_votes := sumAgree (m :: ms),
         disagree_votes := sumDisagree (m :: ms),
         valid_votes := sumValid (m :: ms),
         invalid_votes := sumInvalid (m :: ms),
         eligible_voters := sumEligible (m :: ms),
         average_turnout_rate :=
           if 0 < sumEligible (m :: ms) then
             (sumTotal (m :: ms) : ℚ) / (sumEligible (m :: ms) : ℚ) * 100
           else 0 },
        m.recall_case)
  else (recallOfSumFields sf, first_recall_case records)

/-- One entry of the VILLCODE reference registry
(`villcode_map[key]` in `add_villcode.py` / `match_villcode_improved.py`). -/
structure VillInfo where
  VILLCODE : String
  COUNTYCODE : String
  TOWNCODE : String
  COUNTYNAME : String
  TOWNNAME : String
  VILLNAME : String
deriving DecidableEq

/-- One per-village JSON document as read by the two `update_cunli_files`
variants: the cunli key, the grouped records, and the six optional
VILLCODE fields (absent in the JSON when resolution has not run). -/
structure CunliFile where
  cunli : String
  records : List PollingRecord
  villcode : Option String
  countycode : Option String
  towncode : Option String
  countyname : Option String
  townname : Option String
  villname : Option String
deriving DecidableEq

/-- Python `if k not in data: data[k] = v` for one field: an absent field is
filled, a present field wins. -/
def keepOld (old : Option String) (v : String) : Option String :=
  match old with
  | some x => some x
  | none => some v

/-- The registry lookup of `update_cunli_files` in
`match_villcode_improved.py` (lines 80-97): split the cunli key on the
underscore, take the county from the first record's recall case (the
county extraction regex is passed in as `extractCounty`), and look up
`f"{county}_{district}_{village}"`.  Returns `none` whenever any step
leaves the file untouched.  This variant does not normalize the county. -/
def resolved_info_improved (extractCounty : String → Option String)
    (vmap : String → Option VillInfo) (d : CunliFile) : Option VillInfo :=
  if 2 ≤ (d.cunli.splitOn "_").length then
    match d.records with
    | [] => none
    | r0 :: _ =>
      match extractCounty r0.recall_case with
      | none => none
      | some county =>
        vmap (county ++ "_" ++ (d.cunli.splitOn "_").getD 0 "" ++ "_" ++
          (d.cunli.splitOn "_").getD 1 "")
  else none

/-- Lines 97-107 of `match_villcode_improved.py`: when the registry lookup
succeeds, each of the six VILLCODE fields is written only if absent
(`if k not in data`). -/
def update_cunli_file_improved (extractCounty : String → Option String)
    (vmap : String → Option VillInfo) (d : CunliFile) : CunliFile :=
  match resolved_info_improved extractCounty vmap d with
  | none => d
  | some info =>
    { d with
      villcode := keepOld d.villcode info.VILLCODE,
      countycode := keepOld d.countycode info.COUNTYCODE,
      towncode := keepOld d.towncode info.TOWNCODE,
      countyname := keepOld d.countyname info.COUNTYNAME,
      townname := keepOld d.townname info.TOWNNAME,
      villname := keepOld d.villname info.VILLNAME }

/-- The registry lookup of `update_cunli_files` in `add_villcode.py`
(lines 77-101): as in the improved variant, but the county name is
normalized before building the key. -/
def resolved_info_add (extractCounty : String → Option String)
    (vmap : String → Option VillInfo) (d : CunliFile) : Option VillInfo :=
  if 2 ≤ (d.cunli.splitOn "_").length then
    match d.records with
    | [] => none
    | r0 :: _ =>
      match extractCounty r0.recall_case with
      | none => none
      | some county =>
        vmap (normalize_district_name_str county ++ "_" ++
          (d.cunli.splitOn "_").getD 0 "" ++ "_" ++
          (d.cunli.splitOn "_").getD 1 "")
  else none

/-- Lines 73-107 of `add_villcode.py`: a file that already carries a
VILLCODE is skipped outright (`'VILLCODE' in data`); otherwise a
successful lookup overwrites all six fields (`data.update(...)`). -/
def update_cunli_file_add (extractCounty : String → Option String)
    (vmap : String → Option VillInfo) (d : CunliFile) : CunliFile :=
  if d.villcode.isSome then d
  else
    match resolved_info_add extractCounty vmap d with
    | none => d
    | some info =>
      { d with
        villcode := some info.VILLCODE,
        countycode := some info.COUNTYCODE,
        towncode := some info.TOWNCODE,
        countyname := some info.COUNTYNAME,
        townname := some info.TOWNNAME,
        villname := some info.VILLNAME }

/-- Sample polling record (two-station village, first station). -/
def rA : PollingRecord :=
  ⟨"立委(臺南市第6選舉區)某罷免案", some "中西區", "赤崁里", "0001",
    120, 95, 215, 3, 218, 2, 220, 2, 300, 0⟩

/-- Sample polling record (two-station village, second station). -/
def rB : PollingRecord :=
  ⟨"立委(臺南市第6選舉區)某罷免案", some "中西區", "赤崁里", "0002",
    95, 80, 175, 1, 176, 0, 176, 0, 250, 0⟩

/-- Sample record whose total_voters exceeds its eligible_voters. -/
def rOver : PollingRecord :=
  ⟨"某罷免案", some "北區", "某里", "0001", 0, 0, 0, 0, 200, 0, 0, 0, 100, 0⟩

/-- Sample record with turnout one half. -/
def rHalf : PollingRecord :=
  ⟨"某罷免案", some "北區", "某里", "0001", 0, 0, 0, 0, 1, 0, 1, 0, 2, 0⟩

/-- Sample record with zero eligible voters. -/
def rZero : PollingRecord :=
  ⟨"某罷免案", some "北區", "某里", "0001", 0, 0, 0, 0, 0, 0, 0, 0, 0, 0⟩

/-- Sample record for the corrected village 永和區_光復里. -/
def rSwap : PollingRecord :=
  ⟨"立委(新北市第8選舉區)某罷免案", some "永和區", "光復里", "0001",
    5, 7, 12, 1, 13, 0, 13, 0, 20, 65⟩

/-- Sample record with a missing district (no district header row seen). -/
def rNoDistrict : PollingRecord :=
  ⟨"某罷免案", none, "某里", "0001", 1, 2, 3, 0, 3, 0, 3, 0, 10, 0⟩

/-- Sample record of recall case 甲案 for the multi-case village. -/
def r5a : PollingRecord :=
  ⟨"甲案", some "某區", "某里", "0001", 10, 1, 11, 0, 11, 0, 11, 0, 100, 11⟩

/-- Sample record of recall case 乙案 for the same village. -/
def r5b : PollingRecord :=
  ⟨"乙案", some "某區", "某里", "0002", 20, 2, 22, 0, 22, 0, 22, 0, 100, 22⟩

/-- Sample 基隆市 record whose case label names the 基隆市 electoral zone. -/
def r5c : PollingRecord :=
  ⟨"立委(基隆市選舉區)某罷免案", some "某區", "某里", "0001",
    7, 1, 8, 0, 8, 0, 8, 0, 50, 16⟩

/-- Sample record of a different case in the same 基隆市 village. -/
def r5d : PollingRecord :=
  ⟨"另一案", some "某區", "某里", "0002", 9, 2, 11, 0, 11, 0, 11, 0, 60, 0⟩

/-- Sample village JSON document that already carries a manually verified
VILLCODE. -/
def dManual : CunliFile :=
  ⟨"某區_某里", [rA], some "12345678901", none, none, none, none, none⟩

/-- County extractor that never matches, for concrete witnesses. -/
def ecNone : String → Option String := fun _ => none

/-- Registry lookup that never matches, for concrete witnesses. -/
def vmapNone : String → Option VillInfo := fun _ => none

/-! Helper lemmas shared by the claim theorems. -/

/-- Summing agree votes over swapped records yields the raw disagree sum. -/
theorem sumAgree_map_swap (rs : List PollingRecord) :
    sumAgree (rs.map swapRecord) = sumDisagree rs := by
  unfold sumAgree sumDisagree
  rw [List.map_map]
  rfl

/-- Summing disagree votes over swapped records yields the raw agree sum. -/
theorem sumDisagree_map_swap (rs : List PollingRecord) :
    sumDisagree (rs.map swapRecord) = sumAgree rs := by
  unfold sumAgree sumDisagree
  rw [List.map_map]
  rfl

/-- The turnout field of `sumFields`, unfolded. -/
theorem sumFields_turnout (rs : List PollingRecord) :
    (sumFields rs).average_turnout_rate =
      if 0 < sumEligible rs then
        pythonRound2 ((sumTotal rs : ℚ) / (sumEligible rs : ℚ) * 100)
      else 0 := rfl

/-- C1: for every aggregated village other than the one subject to the
documented agree/disagree swap correction, each summed numeric field of
the emitted `sum_fields` equals the arithmetic sum of the corresponding
field over the village's constituent polling-station records, and the
emitted records are the raw records. -/
theorem c1_aggregate_is_sum_of_records (vc : Option String)
    (rs : List PollingRecord) (h : vc ≠ some "65000040036") :
    (process_cunli_json vc rs).2 = rs ∧
    (process_cunli_json vc rs).1.agree_votes = sumAgree rs ∧
    (process_cunli_json vc rs).1.disagree_votes = sumDisagree rs ∧
    (process_cunli_json vc rs).1.valid_votes = sumValid rs ∧
    (process_cunli_json vc rs).1.invalid_votes = sumInvalid rs ∧
    (process_cunli_json vc rs).1.total_voters = sumTotal rs ∧
    (process_cunli_json vc rs).1.ballots_not_cast = sumBallotsNotCast rs ∧
    (process_cunli_json vc rs).1.ballots_issued = sumBallotsIssued rs ∧
    (process_cunli_json vc rs).1.unused_ballots = sumUnused rs ∧
    (process_cunli_json vc rs).1.eligible_voters = sumEligible rs := by
  unfold process_cunli_json
  rw [if_neg h]
  exact ⟨rfl, rfl, rfl, rfl, rfl, rfl, rfl, rfl, rfl, rfl⟩

/-- Witness for C1 at a concrete two-record village with no resolved code. -/
theorem c1_aggregate_is_sum_of_records_witness :
    (none : Option String) ≠ some "65000040036" ∧
    (process_cunli_json none [rA, rB]).2 = [rA, rB] ∧
    (process_cunli_json none [rA, rB]).1.agree_votes = sumAgree [rA, rB] :=
  ⟨by decide,
    (c1_aggregate_is_sum_of_records none [rA, rB] (by decide)).1,
    (c1_aggregate_is_sum_of_records none [rA, rB] (by decide)).2.1⟩

/-- C2: for every group of polling records, the aggregated average turnout
rate equals the spec formula: total voters summed over eligible voters
summed, times 100, rounded to 2 decimal places, and exactly 0 when the
eligible sum is 0.  Both sides are total functions, so no
division-by-zero error can arise. -/
theorem c2_turnout_formula (rs : List PollingRecord) :
    (sumFields rs).average_turnout_rate =
      turnout_spec (sumTotal rs) (sumEligible rs) := by
  rw [sumFields_turnout]
  unfold turnout_spec
  by_cases h : sumEligible rs = 0
  · rw [if_pos h, if_neg (by omega)]
  · rw [if_neg h, if_pos (by omega)]

/-- C9: when the documented swap correction fires, the
aggregate-equals-sum-of-records invariant still holds, because the swap
is applied both to the summed totals and to every constituent record: in
the per-village JSON pass the emitted totals are the sums over the
emitted (swapped) records, and in the summary pass the totals are the
sums over the swapped copies of its input records. -/
theorem c9_swap_preserves_invariant (vc : Option String)
    (rs rs2 : List PollingRecord) (key : String)
    (h1 : vc = some "65000040036") (h2 : key = "永和區_光復里") :
    ((process_cunli_json vc rs).1.agree_votes =
        sumAgree (process_cunli_json vc rs).2 ∧
      (process_cunli_json vc rs).1.disagree_votes =
        sumDisagree (process_cunli_json vc rs).2) ∧
    ((process_cunli_summary key rs2).agree_votes =
        sumAgree (rs2.map swapRecord) ∧
      (process_cunli_summary key rs2).disagree_votes =
        sumDisagree (rs2.map swapRecord)) := by
  subst h1
  subst h2
  constructor
  · unfold process_cunli_json
    rw [if_pos rfl]
    exact ⟨(sumAgree_map_swap rs).symm, (sumDisagree_map_swap rs).symm⟩
  · unfold process_cunli_summary
    rw [if_pos rfl]
    exact ⟨rfl, rfl⟩

/-- Witness for C9 at the concrete corrected village. -/
theorem c9_swap_preserves_invariant_witness :
    (some "65000040036" : Option String) = some "65000040036" ∧
    (process_cunli_json (some "65000040036") [rSwap]).1.agree_votes =
      sumAgree (process_cunli_json (some "65000040036") [rSwap]).2 ∧
    (process_cunli_summary "永和區_光復里" [rSwap]).agree_votes =
      sumAgree ([rSwap].map swapRecord) :=
  ⟨rfl,
    (c9_swap_preserves_invariant (some "65000040036") [rSwap] [rSwap]
      "永和區_光復里" rfl rfl).1.1,
    (c9_swap_preserves_invariant (some "65000040036") [rSwap] [rSwap]
      "永和區_光復里" rfl rfl).2.1⟩

/-- C4 (failing-input evaluation): for the village whose key resolves to
code 65000040036, the per-village JSON pass does swap the agree/disagree
fields (raw 5/7 becomes 7/5), but because that pass mutates the grouped
records in place, the cunli_summary pass receives the already-swapped
records, swaps them again on the raw-key match, and publishes the raw
uncorrected totals (5/7) in `cunli_summary.json`. -/
theorem c4_summary_swap_undone :
    ((pipeline_village "永和區_光復里" (some "65000040036") [rSwap]).1.1.agree_votes = 7 ∧
      (pipeline_village "永和區_光復里" (some "65000040036") [rSwap]).1.1.disagree_votes = 5) ∧
    ((pipeline_village "永和區_光復里" (some "65000040036") [rSwap]).2.agree_votes = 5 ∧
      (pipeline_village "永和區_光復里" (some "65000040036") [rSwap]).2.disagree_votes = 7) := by
  exact ⟨⟨rfl, rfl⟩, ⟨rfl, rfl⟩⟩

/-- C10: a record whose district is missing or empty, or whose village is
empty, is excluded by the grouping step: it belongs to no village group,
and removing it from the input changes no group (hence no summed total
or output file). -/
theorem c10_empty_key_excluded (r : PollingRecord)
    (h : r.district = none ∨ r.district = some "" ∨ r.village = "") :
    (∀ all_data key, r ∉ merge_by_cunli all_data key) ∧
    (∀ all_data key, merge_by_cunli (r :: all_data) key =
      merge_by_cunli all_data key) := by
  have hinc : record_included r = false := by
    rcases h with h | h | h <;> simp [record_included, h]
  constructor
  · intro all_data key hmem
    have hp := List.of_mem_filter hmem
    rw [hinc] at hp
    simp at hp
  · intro all_data key
    unfold merge_by_cunli
    rw [List.filter_cons_of_neg]
    rw [hinc]
    simp

/-- Witness for C10 at a concrete record with a missing district. -/
theorem c10_empty_key_excluded_witness :
    rNoDistrict.district = none ∧
    rNoDistrict ∉ merge_by_cunli [rNoDistrict, rA] "中西區_赤崁里" ∧
    merge_by_cunli [rNoDistrict, rA] "中西區_赤崁里" =
      merge_by_cunli [rA] "中西區_赤崁里" :=
  ⟨rfl,
    (c10_empty_key_excluded rNoDistrict (Or.inl rfl)).1 [rNoDistrict, rA]
      "中西區_赤崁里",
    (c10_empty_key_excluded rNoDistrict (Or.inl rfl)).2 [rA] "中西區_赤崁里"⟩

/-- Round-half-to-even of a nonnegative value is nonnegative. -/
theorem roundHalfEven_nonneg (x : ℚ) (hx : 0 ≤ x) : 0 ≤ roundHalfEven x := by
  have h0 : (0 : ℤ) ≤ ⌊x⌋ := Int.floor_nonneg.mpr hx
  unfold roundHalfEven
  by_cases h1 : x - ⌊x⌋ < 1 / 2
  · rw [if_pos h1]
    exact h0
  · rw [if_neg h1]
    by_cases h2 : 1 / 2 < x - ⌊x⌋
    · rw [if_pos h2]
      omega
    · rw [if_neg h2]
      by_cases h3 : ⌊x⌋ % 2 = 0
      · rw [if_pos h3]
        exact h0
      · rw [if_neg h3]
        omega

/-- Round-half-to-even never exceeds an integer upper bound of its
argument. -/
theorem roundHalfEven_le (x : ℚ) (B : ℤ) (hx : x ≤ B) : roundHalfEven x ≤ B := by
  have hfl : ⌊x⌋ ≤ B := by
    have := Int.floor_le_floor hx
    rwa [Int.floor_intCast] at this
  have hup : ¬ x - ⌊x⌋ < 1 / 2 → ⌊x⌋ + 1 ≤ B := by
    intro h
    have h5 : (1 : ℚ) / 2 ≤ x - ⌊x⌋ := not_lt.mp h
    have hlt : ((⌊x⌋ : ℚ)) < (B : ℚ) := by linarith
    have : ⌊x⌋ < B := by exact_mod_cast hlt
    omega
  unfold roundHalfEven
  by_cases h1 : x - ⌊x⌋ < 1 / 2
  · rw [if_pos h1]
    exact hfl
  · rw [if_neg h1]
    by_cases h2 : 1 / 2 < x - ⌊x⌋
    · rw [if_pos h2]
      exact hup h1
    · rw [if_neg h2]
      by_cases h3 : ⌊x⌋ % 2 = 0
      · rw [if_pos h3]
        exact hfl
      · rw [if_neg h3]
        exact hup h1

/-- Python `round(x, 2)` of a nonnegative value is nonnegative. -/
theorem pythonRound2_nonneg (x : ℚ) (hx : 0 ≤ x) : 0 ≤ pythonRound2 x := by
  unfold pythonRound2
  have h : (0 : ℚ) ≤ (roundHalfEven (x * 100) : ℚ) := by
    exact_mod_cast roundHalfEven_nonneg (x * 100) (by positivity)
  positivity

/-- Python `round(x, 2)` of a value at most 100 is at most 100. -/
theorem pythonRound2_le_100 (x : ℚ) (hx : x ≤ 100) : pythonRound2 x ≤ 100 := by
  have h1 : x * 100 ≤ ((10000 : ℤ) : ℚ) := by push_cast; linarith
  have h2 : roundHalfEven (x * 100) ≤ 10000 := roundHalfEven_le (x * 100) 10000 h1
  unfold pythonRound2
  rw [div_le_iff₀ (by norm_num : (0 : ℚ) < 100)]
  calc ((roundHalfEven (x * 100) : ℤ) : ℚ) ≤ ((10000 : ℤ) : ℚ) := by
        exact_mod_cast h2
    _ = 100 * 100 := by norm_num

/-- Python `round(x, 2)` of an exact integer value is that integer. -/
theorem pythonRound2_int (n : ℤ) : pythonRound2 (n : ℚ) = (n : ℚ) := by
  unfold pythonRound2 roundHalfEven
  have hc : ((n : ℚ)) * 100 = ((n * 100 : ℤ) : ℚ) := by push_cast; ring
  rw [hc, Int.floor_intCast]
  rw [if_pos (by norm_num)]
  push_cast
  ring

/-- C3 counterexample: a single polling record with total_voters 200 and
eligible_voters 100 gives a positive eligible sum yet an average turnout
rate of 200, outside [0, 100]; the claim as stated fails on the code. -/
theorem c3_counterexample :
    0 < sumEligible [rOver] ∧
    (sumFields [rOver]).average_turnout_rate = 200 ∧
    ¬ (sumFields [rOver]).average_turnout_rate ≤ 100 := by
  have hrate : (sumFields [rOver]).average_turnout_rate = 200 := by
    rw [sumFields_turnout, if_pos (by decide)]
    rw [show sumTotal [rOver] = 200 from rfl, show sumEligible [rOver] = 100 from rfl]
    rw [show ((200 : ℕ) : ℚ) / ((100 : ℕ) : ℚ) * 100 = ((200 : ℤ) : ℚ) by push_cast; norm_num]
    rw [pythonRound2_int]
    norm_num
  refine ⟨by decide, hrate, ?_⟩
  rw [hrate]
  norm_num

/-- C3 amended: when the eligible sum is positive and the summed
total_voters does not exceed the summed eligible_voters, the average
turnout rate lies in [0, 100]; when the eligible sum is 0 the rate is
exactly 0.  (The code itself never enforces total ≤ eligible, so the
bound needs that hypothesis.) -/
theorem c3_turnout_bounds (rs : List PollingRecord) :
    (0 < sumEligible rs → sumTotal rs ≤ sumEligible rs →
      0 ≤ (sumFields rs).average_turnout_rate ∧
        (sumFields rs).average_turnout_rate ≤ 100) ∧
    (sumEligible rs = 0 → (sumFields rs).average_turnout_rate = 0) := by
  constructor
  · intro he hte
    rw [sumFields_turnout, if_pos he]
    have hE : (0 : ℚ) < (sumEligible rs : ℚ) := by exact_mod_cast he
    have hq0 : 0 ≤ (sumTotal rs : ℚ) / (sumEligible rs : ℚ) * 100 := by positivity
    have hq1 : (sumTotal rs : ℚ) / (sumEligible rs : ℚ) * 100 ≤ 100 := by
      have hle : (sumTotal rs : ℚ) / (sumEligible rs : ℚ) ≤ 1 := by
        rw [div_le_one hE]
        exact_mod_cast hte
      linarith
    exact ⟨pythonRound2_nonneg _ hq0, pythonRound2_le_100 _ hq1⟩
  · intro he
    rw [sumFields_turnout, if_neg (by omega)]

/-- Witness for the amended C3 at concrete records: a half-turnout record
for the bounded branch and a zero-eligible record for the zero branch. -/
theorem c3_turnout_bounds_witness :
    (0 < sumEligible [rHalf] ∧ sumTotal [rHalf] ≤ sumEligible [rHalf] ∧
      0 ≤ (sumFields [rHalf]).average_turnout_rate ∧
        (sumFields [rHalf]).average_turnout_rate ≤ 100) ∧
    (sumEligible [rZero] = 0 ∧ (sumFields [rZero]).average_turnout_rate = 0) :=
  ⟨⟨by decide, by decide,
      ((c3_turnout_bounds [rHalf]).1 (by decide) (by decide)).1,
      ((c3_turnout_bounds [rHalf]).1 (by decide) (by decide)).2⟩,
    ⟨rfl, (c3_turnout_bounds [rZero]).2 rfl⟩⟩

/-- Filling an already-filled field again changes nothing. -/
theorem keepOld_idem (o : Option String) (v : String) :
    keepOld (keepOld o v) v = keepOld o v := by
  cases o <;> rfl

/-- `keepOld` applied to a filled field keeps it. -/
theorem keepOld_some (c v : String) : keepOld (some c) v = some c := rfl

/-- The improved-variant registry lookup only reads the cunli key and the
records, which the update never modifies. -/
theorem resolved_info_improved_congr (ec : String → Option String)
    (vmap : String → Option VillInfo) (d1 d2 : CunliFile)
    (h1 : d1.cunli = d2.cunli) (h2 : d1.records = d2.records) :
    resolved_info_improved ec vmap d1 = resolved_info_improved ec vmap d2 := by
  unfold resolved_info_improved
  rw [h1, h2]

/-- The add-variant registry lookup only reads the cunli key and the
records. -/
theorem resolved_info_add_congr (ec : String → Option String)
    (vmap : String → Option VillInfo) (d1 d2 : CunliFile)
    (h1 : d1.cunli = d2.cunli) (h2 : d1.records = d2.records) :
    resolved_info_add ec vmap d1 = resolved_info_add ec vmap d2 := by
  unfold resolved_info_add
  rw [h1, h2]

/-- The improved update variant is idempotent. -/
theorem update_improved_idem (ec : String → Option String)
    (vmap : String → Option VillInfo) (d : CunliFile) :
    update_cunli_file_improved ec vmap (update_cunli_file_improved ec vmap d) =
      update_cunli_file_improved ec vmap d := by
  cases hri : resolved_info_improved ec vmap d with
  | none =>
    have hd : update_cunli_file_improved ec vmap d = d := by
      unfold update_cunli_file_improved
      rw [hri]
    rw [hd, hd]
  | some info =>
    have hd : update_cunli_file_improved ec vmap d =
        { d with
          villcode := keepOld d.villcode info.VILLCODE,
          countycode := keepOld d.countycode info.COUNTYCODE,
          towncode := keepOld d.towncode info.TOWNCODE,
          countyname := keepOld d.countyname info.COUNTYNAME,
          townname := keepOld d.townname info.TOWNNAME,
          villname := keepOld d.villname info.VILLNAME } := by
      unfold update_cunli_file_improved
      rw [hri]
    have hsame : resolved_info_improved ec vmap
        (update_cunli_file_improved ec vmap d) = some info := by
      rw [resolved_info_improved_congr ec vmap _ d (by rw [hd]) (by rw [hd])]
      exact hri
    conv_lhs => rw [update_cunli_file_improved, hsame]
    rw [hd]
    simp [keepOld_idem]

/-- The add update variant is idempotent. -/
theorem update_add_idem (ec : String → Option String)
    (vmap : String → Option VillInfo) (d : CunliFile) :
    update_cunli_file_add ec vmap (update_cunli_file_add ec vmap d) =
      update_cunli_file_add ec vmap d := by
  by_cases hv : d.villcode.isSome
  · have hd : update_cunli_file_add ec vmap d = d := by
      unfold update_cunli_file_add
      rw [if_pos hv]
    rw [hd, hd]
  · cases hra : resolved_info_add ec vmap d with
    | none =>
      have hd : update_cunli_file_add ec vmap d = d := by
        unfold update_cunli_file_add
        rw [if_neg hv, hra]
      rw [hd, hd]
    | some info =>
      have hd : update_cunli_file_add ec vmap d =
          { d with
            villcode := some info.VILLCODE,
            countycode := some info.COUNTYCODE,
            towncode := some info.TOWNCODE,
            countyname := some info.COUNTYNAME,
            townname := some info.TOWNNAME,
            villname := some info.VILLNAME } := by
        unfold update_cunli_file_add
        rw [if_neg hv, hra]
      conv_lhs => rw [update_cunli_file_add]
      rw [hd]
      rfl

/-- C7: the code-resolution step never overwrites an existing code, and
running it twice over the same inputs equals running it once, for both
resolver scripts: `match_villcode_improved.py` fills each field only if
absent, and `add_villcode.py` skips any file already carrying a
VILLCODE. -/
theorem c7_resolution_idempotent (ec : String → Option String)
    (vmap : String → Option VillInfo) (d : CunliFile) :
    update_cunli_file_improved ec vmap (update_cunli_file_improved ec vmap d) =
      update_cunli_file_improved ec vmap d ∧
    update_cunli_file_add ec vmap (update_cunli_file_add ec vmap d) =
      update_cunli_file_add ec vmap d ∧
    (∀ c, d.villcode = some c →
      (update_cunli_file_improved ec vmap d).villcode = some c ∧
      (update_cunli_file_add ec vmap d).villcode = some c) := by
  refine ⟨update_improved_idem ec vmap d, update_add_idem ec vmap d, ?_⟩
  intro c hc
  constructor
  · cases hri : resolved_info_improved ec vmap d with
    | none =>
      unfold update_cunli_file_improved
      rw [hri]
      exact hc
    | some info =>
      unfold update_cunli_file_improved
      rw [hri]
      show keepOld d.villcode info.VILLCODE = some c
      rw [hc]
      rfl
  · unfold update_cunli_file_add
    rw [if_pos (by rw [hc]; rfl)]
    exact hc

/-- Witness for C7 at a concrete manually-verified file: the existing code
survives both update variants. -/
theorem c7_resolution_idempotent_witness :
    dManual.villcode = some "12345678901" ∧
    (update_cunli_file_improved ecNone vmapNone dManual).villcode =
      some "12345678901" ∧
    (update_cunli_file_add ecNone vmapNone dManual).villcode =
      some "12345678901" :=
  ⟨rfl,
    ((c7_resolution_idempotent ecNone vmapNone dManual).2.2 "12345678901" rfl).1,
    ((c7_resolution_idempotent ecNone vmapNone dManual).2.2 "12345678901" rfl).2⟩

/-- Unfolding equation of `pick_winner_aux` on a cons cell. -/
theorem pick_winner_aux_cons (best : Winner) (v : VoteInfo) (vs : List VoteInfo) :
    pick_winner_aux best (v :: vs) =
      pick_winner_aux
        (if best.winner_votes < v.votes then ⟨v.name, v.party, v.votes⟩ else best)
        vs := rfl

/-- Structure of `pick_winner_aux`: either no candidate strictly beats the
running best and the best is returned with every candidate at or below
it, or the result is the first candidate that attains the (strictly
positive relative to the running best) maximum, with all earlier
candidates strictly below it. -/
theorem pick_winner_aux_spec (vs : List VoteInfo) : ∀ best : Winner,
    (pick_winner_aux best vs = best ∧ ∀ v ∈ vs, v.votes ≤ best.winner_votes) ∨
    (∃ k, ∃ hk : k < vs.length,
      pick_winner_aux best vs =
        ⟨(vs.get ⟨k, hk⟩).name, (vs.get ⟨k, hk⟩).party, (vs.get ⟨k, hk⟩).votes⟩ ∧
      best.winner_votes < (vs.get ⟨k, hk⟩).votes ∧
      (∀ v ∈ vs, v.votes ≤ (vs.get ⟨k, hk⟩).votes) ∧
      ∀ j (hj : j < k), (vs.get ⟨j, hj.trans hk⟩).votes < (vs.get ⟨k, hk⟩).votes) := by
  induction vs with
  | nil =>
    intro best
    left
    exact ⟨rfl, by simp⟩
  | cons v vs IH =>
    intro best
    by_cases hv : best.winner_votes < v.votes
    · have hstep : pick_winner_aux best (v :: vs) =
          pick_winner_aux ⟨v.name, v.party, v.votes⟩ vs := by
        rw [pick_winner_aux_cons, if_pos hv]
      rcases IH ⟨v.name, v.party, v.votes⟩ with ⟨heq, hall⟩ | ⟨k, hk, heq, hlt, hall, hfirst⟩
      · right
        refine ⟨0, by simp, ?_, ?_, ?_, ?_⟩
        · rw [hstep, heq]
          rfl
        · simpa using hv
        · intro w hw
          rcases List.mem_cons.mp hw with rfl | hw2
          · exact le_refl _
          · exact hall w hw2
        · intro j hj
          omega
      · right
        refine ⟨k + 1, by simpa using Nat.succ_lt_succ hk, ?_, ?_, ?_, ?_⟩
        · rw [hstep, heq]
          rfl
        · exact hv.trans hlt
        · intro w hw
          rcases List.mem_cons.mp hw with rfl | hw2
          · exact le_of_lt hlt
          · exact hall w hw2
        · intro j hj
          cases j with
          | zero => exact hlt
          | succ j0 => exact hfirst j0 (Nat.lt_of_succ_lt_succ hj)
    · have hstep : pick_winner_aux best (v :: vs) = pick_winner_aux best vs := by
        rw [pick_winner_aux_cons, if_neg hv]
      rcases IH best with ⟨heq, hall⟩ | ⟨k, hk, heq, hlt, hall, hfirst⟩
      · left
        refine ⟨hstep.trans heq, ?_⟩
        intro w hw
        rcases List.mem_cons.mp hw with rfl | hw2
        · exact Nat.not_lt.mp hv
        · exact hall w hw2
      · right
        refine ⟨k + 1, by simpa using Nat.succ_lt_succ hk, ?_, ?_, ?_, ?_⟩
        · rw [hstep, heq]
          rfl
        · exact hlt
        · intro w hw
          rcases List.mem_cons.mp hw with rfl | hw2
          · exact le_of_lt (Nat.lt_of_le_of_lt (Nat.not_lt.mp hv) hlt)
          · exact hall w hw2
        · intro j hj
          cases j with
          | zero => exact Nat.lt_of_le_of_lt (Nat.not_lt.mp hv) hlt
          | succ j0 => exact hfirst j0 (Nat.lt_of_succ_lt_succ hj)

/-- C6 counterexample: with two candidates tied at the greatest count 0,
the claim says the first candidate A is reported as winner, but the code
leaves the sentinel empty winner (nobody strictly exceeds the initial 0),
so the claim as stated fails on the code. -/
theorem c6_counterexample :
    pick_winner [⟨"A", "P", 0, "1"⟩, ⟨"B", "Q", 0, "2"⟩] = ⟨"", "", 0⟩ ∧
    (pick_winner [⟨"A", "P", 0, "1"⟩, ⟨"B", "Q", 0, "2"⟩]).winner_name ≠ "A" := by
  exact ⟨rfl, by decide⟩

/-- C6 amended: whenever some candidate has a strictly positive vote
count, the reported winner is an actual candidate attaining the maximum
count, and every earlier candidate in input order has a strictly smaller
count (so on a tie for the greatest count the first such candidate is
reported); when every candidate has 0 votes the sentinel empty winner is
reported instead. -/
theorem c6_first_max_wins (votes : List VoteInfo)
    (h : ∃ v ∈ votes, 0 < v.votes) :
    ∃ k, ∃ hk : k < votes.length,
      pick_winner votes =
        ⟨(votes.get ⟨k, hk⟩).name, (votes.get ⟨k, hk⟩).party,
          (votes.get ⟨k, hk⟩).votes⟩ ∧
      (∀ v ∈ votes, v.votes ≤ (votes.get ⟨k, hk⟩).votes) ∧
      ∀ j (hj : j < k), (votes.get ⟨j, hj.trans hk⟩).votes <
        (votes.get ⟨k, hk⟩).votes := by
  rcases pick_winner_aux_spec votes ⟨"", "", 0⟩ with ⟨_, hall⟩ | ⟨k, hk, heq, _, hall, hfirst⟩
  · obtain ⟨v, hv, hpos⟩ := h
    have := hall v hv
    simp at this
    omega
  · exact ⟨k, hk, heq, hall, hfirst⟩

/-- Witness for the amended C6: two candidates tied at a positive count;
the first is reported. -/
theorem c6_first_max_wins_witness :
    (∃ v ∈ [(⟨"A", "P", 3, "1"⟩ : VoteInfo), ⟨"B", "Q", 3, "2"⟩], 0 < v.votes) ∧
    ∃ k, ∃ hk : k < ([(⟨"A", "P", 3, "1"⟩ : VoteInfo), ⟨"B", "Q", 3, "2"⟩]).length,
      pick_winner [(⟨"A", "P", 3, "1"⟩ : VoteInfo), ⟨"B", "Q", 3, "2"⟩] =
        ⟨(([(⟨"A", "P", 3, "1"⟩ : VoteInfo), ⟨"B", "Q", 3, "2"⟩]).get ⟨k, hk⟩).name,
          (([(⟨"A", "P", 3, "1"⟩ : VoteInfo), ⟨"B", "Q", 3, "2"⟩]).get ⟨k, hk⟩).party,
          (([(⟨"A", "P", 3, "1"⟩ : VoteInfo), ⟨"B", "Q", 3, "2"⟩]).get ⟨k, hk⟩).votes⟩ ∧
      (∀ v ∈ [(⟨"A", "P", 3, "1"⟩ : VoteInfo), ⟨"B", "Q", 3, "2"⟩],
        v.votes ≤ (([(⟨"A", "P", 3, "1"⟩ : VoteInfo), ⟨"B", "Q", 3, "2"⟩]).get ⟨k, hk⟩).votes) ∧
      ∀ j (hj : j < k),
        (([(⟨"A", "P", 3, "1"⟩ : VoteInfo), ⟨"B", "Q", 3, "2"⟩]).get ⟨j, hj.trans hk⟩).votes <
          (([(⟨"A", "P", 3, "1"⟩ : VoteInfo), ⟨"B", "Q", 3, "2"⟩]).get ⟨k, hk⟩).votes :=
  ⟨by decide,
    c6_first_max_wins [⟨"A", "P", 3, "1"⟩, ⟨"B", "Q", 3, "2"⟩] (by decide)⟩

/-- C5 counterexample: a village spanning two recall cases in a county
with no disambiguation rule (no rule matches, `matching_records` is
empty).  The claim says the joiner falls back to the first case's totals
(agree sum 10), but the code falls back to the pre-aggregated
full-village `sum_fields`, whose agree sum 30 spans both cases. -/
theorem c5_counterexample :
    1 < distinct_recall_cases [r5a, r5b] ∧
    matching_records "桃園市" "某選區" [r5a, r5b] = [] ∧
    (combineRecall "桃園市" "某選區" (sumFields [r5a, r5b]) [r5a, r5b]).1.agree_votes = 30 ∧
    sumAgree (([r5a, r5b]).filter fun r =>
      r.recall_case == first_recall_case [r5a, r5b]) = 10 ∧
    (30 : ℕ) ≠ 10 := by
  refine ⟨by decide, by decide, ?_, by decide, by decide⟩
  rfl

/-- C5 amended: with more than one distinct recall case and a nonempty
matched subset, the joiner recomputes the recall totals (agree, disagree,
valid, invalid, eligible, and an unrounded turnout) from only that
subset and reports the first matched record's case label; with a single
case (where the pre-aggregated totals are the only case's totals), or
when the city rules match no record, it keeps the pre-aggregated
full-village `sum_fields` and the first record's case label. -/
theorem c5_zone_disambiguation (county_name election_zone : String)
    (sf : SumFields) (records : List PollingRecord) :
    (distinct_recall_cases records ≤ 1 →
      combineRecall county_name election_zone sf records =
        (recallOfSumFields sf, first_recall_case records)) ∧
    (1 < distinct_recall_cases records →
      matching_records county_name election_zone records = [] →
      combineRecall county_name election_zone sf records =
        (recallOfSumFields sf, first_recall_case records)) ∧
    (∀ m ms, 1 < distinct_recall_cases records →
      matching_records county_name election_zone records = m :: ms →
      combineRecall county_name election_zone sf records =
        ({ agree_votes := sumAgree (m :: ms),
           disagree_votes := sumDisagree (m :: ms),
           valid_votes := sumValid (m :: ms),
           invalid_votes := sumInvalid (m :: ms),
           eligible_voters := sumEligible (m :: ms),
           average_turnout_rate :=
             if 0 < sumEligible (m :: ms) then
               (sumTotal (m :: ms) : ℚ) / (sumEligible (m :: ms) : ℚ) * 100
             else 0 },
          m.recall_case)) := by
  refine ⟨?_, ?_, ?_⟩
  · intro h1
    unfold combineRecall
    rw [if_neg (by omega)]
  · intro h1 hm
    unfold combineRecall
    rw [if_pos h1, hm]
  · intro m ms h1 hm
    unfold combineRecall
    rw [if_pos h1, hm]

/-- Witness for the amended C5: a 基隆市 village with two cases, where the
基隆市 rule selects exactly the record whose label names the 基隆市
zone, so the totals are recomputed from that record alone. -/
theorem c5_zone_disambiguation_witness :
    1 < distinct_recall_cases [r5c, r5d] ∧
    matching_records "基隆市" "某選區" [r5c, r5d] = [r5c] ∧
    combineRecall "基隆市" "某選區" (sumFields [r5c, r5d]) [r5c, r5d] =
      ({ agree_votes := sumAgree [r5c],
         disagree_votes := sumDisagree [r5c],
         valid_votes := sumValid [r5c],
         invalid_votes := sumInvalid [r5c],
         eligible_voters := sumEligible [r5c],
         average_turnout_rate :=
           if 0 < sumEligible [r5c] then
             (sumTotal [r5c] : ℚ) / (sumEligible [r5c] : ℚ) * 100
           else 0 },
        r5c.recall_case) :=
  ⟨by decide, by decide,
    (c5_zone_disambiguation "基隆市" "某選區" (sumFields [r5c, r5d])
      [r5c, r5d]).2.2 r5c [] (by decide) (by decide)⟩

/-- Unfolding equation of `replaceAll` on the empty string. -/
theorem replaceAll_nil (a : Char) (t r : List Char) : replaceAll a t r [] = [] := by
  simp [replaceAll]

/-- Unfolding equation of `replaceAll` on a cons cell. -/
theorem replaceAll_cons (a : Char) (t r : List Char) (c : Char) (cs : List Char) :
    replaceAll a t r (c :: cs) =
      if leads (a :: t) (c :: cs) then
        r ++ replaceAll a t r (List.drop t.length cs)
      else
        c :: replaceAll a t r cs := by
  rw [replaceAll]

/-- A string free of occurrences of a pattern is unchanged by replacing
that pattern. -/
theorem replaceAll_id_of_free (a : Char) (t r : List Char) :
    ∀ s, occursIn (a :: t) s = false → replaceAll a t r s = s := by
  intro s
  induction s with
  | nil =>
    intro _
    exact replaceAll_nil a t r
  | cons c cs IH =>
    intro h
    simp only [occursIn, Bool.or_eq_false_iff] at h
    rw [replaceAll_cons, if_neg (by simp [h.1]), IH h.2]

/-- Dropping a prefix cannot create an occurrence of a pattern. -/
theorem occursIn_drop_free (p : List Char) :
    ∀ (n : ℕ) (s : List Char), occursIn p s = false →
      occursIn p (List.drop n s) = false := by
  intro n
  induction n with
  | zero =>
    intro s h
    simpa using h
  | succ n IH =>
    intro s h
    cases s with
    | nil => simpa using h
    | cons c cs =>
      have h2 : occursIn p cs = false := by
        simp only [occursIn, Bool.or_eq_false_iff] at h
        exact h.2
      simpa using IH cs h2

/-- Prepending characters different from the pattern head cannot create an
occurrence of the pattern. -/
theorem occursIn_append_free (a : Char) (u : List Char) :
    ∀ x y, a ∉ x → occursIn (a :: u) y = false →
      occursIn (a :: u) (x ++ y) = false := by
  intro x
  induction x with
  | nil =>
    intro y _ hy
    simpa using hy
  | cons b xs IH =>
    intro y hx hy
    have hb : a ≠ b := fun hab => hx (hab ▸ List.mem_cons_self b xs)
    show occursIn (a :: u) (b :: (xs ++ y)) = false
    simp only [occursIn, Bool.or_eq_false_iff]
    constructor
    · simp [leads, hb]
    · exact IH y (fun hmem => hx (List.mem_cons_of_mem b hmem)) hy

/-- If the output of a replacement starts with a fragment `u` containing
neither the pattern head `a` nor the replacement head `h0`, then the
input started with `u` as well. -/
theorem leads_replaceAll (a : Char) (t : List Char) (h0 : Char) (r : List Char) :
    ∀ s u, a ∉ u → h0 ∉ u →
      leads u (replaceAll a t (h0 :: r) s) = true → leads u s = true := by
  intro s
  induction s with
  | nil =>
    intro u _ _ hl
    rw [replaceAll_nil] at hl
    cases u with
    | nil => rfl
    | cons x xs => simp [leads] at hl
  | cons c cs IH =>
    intro u hau hhu hl
    rw [replaceAll_cons] at hl
    by_cases hm : leads (a :: t) (c :: cs) = true
    · rw [if_pos hm] at hl
      cases u with
      | nil => rfl
      | cons x xs =>
        have hx : x = h0 := by
          simp only [List.cons_append, leads, Bool.and_eq_true, beq_iff_eq] at hl
          exact hl.1
        subst hx
        exact absurd (List.mem_cons_self x xs) hhu
    · rw [if_neg hm] at hl
      cases u with
      | nil => rfl
      | cons x xs =>
        simp only [leads, Bool.and_eq_true, beq_iff_eq] at hl ⊢
        obtain ⟨hx, hl2⟩ := hl
        exact ⟨hx,
          IH xs (fun hm2 => hau (List.mem_cons_of_mem x hm2))
            (fun hm2 => hhu (List.mem_cons_of_mem x hm2)) hl2⟩

/-- Replacing a pattern `a :: t` by a replacement that does not contain `a`
and whose head does not occur in `t` leaves no occurrence of the
pattern. -/
theorem replaceAll_self_free (a : Char) (t : List Char) (h0 : Char) (r : List Char)
    (hat : a ∉ t) (har : a ∉ h0 :: r) (hht : h0 ∉ t) :
    ∀ s, occursIn (a :: t) (replaceAll a t (h0 :: r) s) = false := by
  suffices H : ∀ n s, List.length s ≤ n →
      occursIn (a :: t) (replaceAll a t (h0 :: r) s) = false by
    intro s
    exact H s.length s le_rfl
  intro n
  induction n with
  | zero =>
    intro s hs
    have hnil : s = [] := List.eq_nil_of_length_eq_zero (Nat.le_zero.mp hs)
    subst hnil
    rw [replaceAll_nil]
    rfl
  | succ n IH =>
    intro s hs
    cases s with
    | nil =>
      rw [replaceAll_nil]
      rfl
    | cons c cs =>
      simp only [List.length_cons] at hs
      rw [replaceAll_cons]
      by_cases hm : leads (a :: t) (c :: cs) = true
      · rw [if_pos hm]
        apply occursIn_append_free a t (h0 :: r) _ har
        apply IH
        simp only [List.length_drop]
        omega
      · rw [if_neg hm]
        simp only [occursIn, Bool.or_eq_false_iff]
        constructor
        · by_contra hcon
          rw [Bool.not_eq_false] at hcon
          simp only [leads, Bool.and_eq_true, beq_iff_eq] at hcon
          obtain ⟨hac, hlt⟩ := hcon
          have hlcs : leads t cs = true := leads_replaceAll a t h0 r cs t hat hht hlt
          apply hm
          simp only [leads, Bool.and_eq_true, beq_iff_eq]
          exact ⟨hac, hlcs⟩
        · apply IH
          omega

/-- Replacing a pattern `a :: t` cannot create an occurrence of another
pattern `a :: u` sharing the same head, provided the replacement does not
contain `a` and its head does not occur in `u`. -/
theorem replaceAll_preserves_free (a : Char) (t : List Char) (h0 : Char)
    (r : List Char) (u : List Char) (hau : a ∉ u) (hhu : h0 ∉ u)
    (har : a ∉ h0 :: r) :
    ∀ s, occursIn (a :: u) s = false →
      occursIn (a :: u) (replaceAll a t (h0 :: r) s) = false := by
  suffices H : ∀ n s, List.length s ≤ n → occursIn (a :: u) s = false →
      occursIn (a :: u) (replaceAll a t (h0 :: r) s) = false by
    intro s
    exact H s.length s le_rfl
  intro n
  induction n with
  | zero =>
    intro s hs h
    have hnil : s = [] := List.eq_nil_of_length_eq_zero (Nat.le_zero.mp hs)
    subst hnil
    rw [replaceAll_nil]
    exact h
  | succ n IH =>
    intro s hs h
    cases s with
    | nil =>
      rw [replaceAll_nil]
      exact h
    | cons c cs =>
      simp only [List.length_cons] at hs
      have hsplit : leads (a :: u) (c :: cs) = false ∧ occursIn (a :: u) cs = false := by
        simpa only [occursIn, Bool.or_eq_false_iff] using h
      rw [replaceAll_cons]
      by_cases hm : leads (a :: t) (c :: cs) = true
      · rw [if_pos hm]
        apply occursIn_append_free a u (h0 :: r) _ har
        apply IH
        · simp only [List.length_drop]
          omega
        · exact occursIn_drop_free (a :: u) t.length cs hsplit.2
      · rw [if_neg hm]
        simp only [occursIn, Bool.or_eq_false_iff]
        refine ⟨?_, IH cs (by omega) hsplit.2⟩
        by_contra hcon
        rw [Bool.not_eq_false] at hcon
        simp only [leads, Bool.and_eq_true, beq_iff_eq] at hcon
        obtain ⟨hac, hlu⟩ := hcon
        have hlcs : leads u cs = true := leads_replaceAll a t h0 r cs u hau hhu hlu
        have hT : leads (a :: u) (c :: cs) = true := by
          simp only [leads, Bool.and_eq_true, beq_iff_eq]
          exact ⟨hac, hlcs⟩
        rw [hsplit.1] at hT
        cases hT

/-- The normalizer leaves no occurrence of 臺北市. -/
theorem norm_free_taipei (l : List Char) :
    occursIn ['臺', '北', '市'] (normalize_district_name l) = false := by
  unfold normalize_district_name
  apply replaceAll_preserves_free '臺' ['南', '市'] '台' ['南', '市'] ['北', '市']
    (by decide) (by decide) (by decide)
  apply replaceAll_preserves_free '臺' ['東', '縣'] '台' ['東', '縣'] ['北', '市']
    (by decide) (by decide) (by decide)
  apply replaceAll_preserves_free '臺' ['中', '市'] '台' ['中', '市'] ['北', '市']
    (by decide) (by decide) (by decide)
  exact replaceAll_self_free '臺' ['北', '市'] '台' ['北', '市']
    (by decide) (by decide) (by decide) l

/-- The normalizer leaves no occurrence of 臺中市. -/
theorem norm_free_taichung (l : List Char) :
    occursIn ['臺', '中', '市'] (normalize_district_name l) = false := by
  unfold normalize_district_name
  apply replaceAll_preserves_free '臺' ['南', '市'] '台' ['南', '市'] ['中', '市']
    (by decide) (by decide) (by decide)
  apply replaceAll_preserves_free '臺' ['東', '縣'] '台' ['東', '縣'] ['中', '市']
    (by decide) (by decide) (by decide)
  exact replaceAll_self_free '臺' ['中', '市'] '台' ['中', '市']
    (by decide) (by decide) (by decide) _

/-- The normalizer leaves no occurrence of 臺東縣. -/
theorem norm_free_taitung (l : List Char) :
    occursIn ['臺', '東', '縣'] (normalize_district_name l) = false := by
  unfold normalize_district_name
  apply replaceAll_preserves_free '臺' ['南', '市'] '台' ['南', '市'] ['東', '縣']
    (by decide) (by decide) (by decide)
  exact replaceAll_self_free '臺' ['東', '縣'] '台' ['東', '縣']
    (by decide) (by decide) (by decide) _

/-- The normalizer leaves no occurrence of 臺南市. -/
theorem norm_free_tainan (l : List Char) :
    occursIn ['臺', '南', '市'] (normalize_district_name l) = false := by
  unfold normalize_district_name
  exact replaceAll_self_free '臺' ['南', '市'] '台' ['南', '市']
    (by decide) (by decide) (by decide) _

/-- A character list free of all four variant names is unchanged by the
normalizer. -/
theorem normalize_district_name_id_of_free (l : List Char)
    (h1 : occursIn ['臺', '北', '市'] l = false)
    (h2 : occursIn ['臺', '中', '市'] l = false)
    (h3 : occursIn ['臺', '東', '縣'] l = false)
    (h4 : occursIn ['臺', '南', '市'] l = false) :
    normalize_district_name l = l := by
  unfold normalize_district_name
  rw [replaceAll_id_of_free '臺' ['北', '市'] _ l h1,
    replaceAll_id_of_free '臺' ['中', '市'] _ l h2,
    replaceAll_id_of_free '臺' ['東', '縣'] _ l h3,
    replaceAll_id_of_free '臺' ['南', '市'] _ l h4]

/-- The normalizer is idempotent at the character-list level. -/
theorem normalize_district_name_idem (l : List Char) :
    normalize_district_name (normalize_district_name l) =
      normalize_district_name l :=
  normalize_district_name_id_of_free (normalize_district_name l)
    (norm_free_taipei l) (norm_free_taichung l) (norm_free_taitung l)
    (norm_free_tainan l)

/-- C8: applying the character-variant name normalizer twice yields the
same result as applying it once, and a string containing none of the four
enumerated county/city name variants (臺北市, 臺中市, 臺東縣, 臺南市)
passes through unchanged. -/
theorem c8_normalizer_idempotent (s : String) :
    normalize_district_name_str (normalize_district_name_str s) =
      normalize_district_name_str s ∧
    (strOccurs "臺北市" s = false → strOccurs "臺中市" s = false →
      strOccurs "臺東縣" s = false → strOccurs "臺南市" s = false →
      normalize_district_name_str s = s) := by
  constructor
  · show String.mk (normalize_district_name (normalize_district_name s.data)) =
      String.mk (normalize_district_name s.data)
    rw [normalize_district_name_idem]
  · intro h1 h2 h3 h4
    show String.mk (normalize_district_name s.data) = s
    rw [normalize_district_name_id_of_free s.data h1 h2 h3 h4]

/-- Witness for C8 at a concrete name containing none of the four
variants. -/
theorem c8_normalizer_idempotent_witness :
    strOccurs "臺北市" "高雄市三民區" = false ∧
    strOccurs "臺中市" "高雄市三民區" = false ∧
    strOccurs "臺東縣" "高雄市三民區" = false ∧
    strOccurs "臺南市" "高雄市三民區" = false ∧
    normalize_district_name_str "高雄市三民區" = "高雄市三民區" :=
  ⟨by decide, by decide, by decide, by decide,
    (c8_normalizer_idempotent "高雄市三民區").2 (by decide) (by decide)
      (by decide) (by decide)⟩

end Recall2025
